import Mathlib

/-!
Verification of the batch partition-and-reconcile scheme of the
managers_revelio pipeline.

The development shallowly embeds the three core scripts:

* code/01_setup/generate_batches.py — `split_into_batches`,
  `verify_batches`, `main`;
* code/02_extraction/extract_names_batch.py — `extract_batch` with its
  LIMIT/OFFSET window and within-shard deduplication;
* code/02_extraction/verify_extraction.py — `verify_extraction`,
  missing-shard computation and sidecar aggregation.

Rows are modelled polymorphically (`List α`); machinery that the scripts
delegate to collaborators (the WRDS connection, the filesystem) is modelled
as explicit inputs (the query result as an `Except`, reloaded shard files
as lists) and explicit outputs (records of the files a run would write).
Definitions come first, then the theorems about them.
-/

namespace ManagersRevelio

/-! ### Definitions: batch partitioner (generate_batches.py) -/

/-- Sizes of the batches: base_size is total div num_batches, remainder is
total mod num_batches, and batch i (0-indexed) gets base_size plus 1 when
i is below the remainder.  Mirrors the list comprehension in
`split_into_batches`. -/
def batch_sizes (total num_batches : Nat) : List Nat :=
  (List.range num_batches).map
    (fun i => total / num_batches + if i < total % num_batches then 1 else 0)

/-- Cursor walk: consume each computed size in turn from the front of the
list, mirroring the iloc slicing loop from start_idx to end_idx. -/
def take_sizes : List Nat → List α → List (List α)
  | [], _ => []
  | s :: ss, l => l.take s :: take_sizes ss (l.drop s)

/-- Model of `split_into_batches` from generate_batches.py: split a record
list into num_batches contiguous slices whose sizes are `batch_sizes`. -/
def split_into_batches (df : List α) (num_batches : Nat) : List (List α) :=
  take_sizes (batch_sizes df.length num_batches) df

/-- Number of rows marked by the pandas duplicated() method: a row counts
when an equal row occurred earlier.  The first argument accumulates the
rows already passed. -/
def duplicated_count [DecidableEq α] : List α → List α → Nat
  | _, [] => 0
  | seen, x :: xs =>
      (if x ∈ seen then 1 else 0) + duplicated_count (x :: seen) xs

/-- Model of `verify_batches` from generate_batches.py: reload every shard
file (the second argument is the list of reloaded per-file row lists),
concatenate, then return false on a row-count mismatch with the original,
false when any duplicate row exists in the concatenation, and true
otherwise. -/
def verify_batches [DecidableEq α] (original : List α)
    (reloaded : List (List α)) : Bool :=
  let combined := reloaded.flatten
  if original.length = combined.length then
    if duplicated_count [] combined = 0 then true else false
  else false

/-- Observable outcome of one run of `main` in generate_batches.py. -/
structure MainOutcome where
  verifyResult : Bool
  reportedSuccess : Bool
  exitCode : Nat

/-- Model of `main` from generate_batches.py, from the point where the
shard files have been saved and reload as the second argument: it calls
`verify_batches` on the original frame and the saved files but discards
the returned Boolean, then unconditionally prints the success banner and
falls off the end of the try block, so the process exits 0 (sys.exit(1)
is reached only when an exception propagates, and `verify_batches`
returns instead of raising). -/
def generate_batches_main [DecidableEq α] (df : List α)
    (reloaded : List (List α)) : MainOutcome :=
  let v := verify_batches df reloaded
  ⟨v, true, 0⟩

/-! ### Definitions: shard extractor (extract_names_batch.py) -/

/-- Model of the offset computation in `extract_batch`: offset is
(task_id - 1) * rows_per_batch; task IDs are 1-based, and truncated
subtraction coincides with the Python expression for task_id at least 1. -/
def extract_offset (task_id rows_per_batch : Nat) : Nat :=
  (task_id - 1) * rows_per_batch

/-- Little-endian decimal digits, with explicit fuel (fuel at least n
suffices); the empty list for 0, mirroring positional rendering of a
positive number. -/
def digits_le_aux : Nat → Nat → List Nat
  | 0, _ => []
  | _ + 1, 0 => []
  | fuel + 1, n + 1 => (n + 1) % 10 :: digits_le_aux fuel ((n + 1) / 10)

/-- Little-endian decimal digits of n. -/
def digits_le (n : Nat) : List Nat :=
  digits_le_aux n n

/-- Little-endian decimal digits of n, zero-padded (at the high-order end)
to width w — the digit field produced by the zero-padded format of Python
(width 2 or 4 here), which pads but never truncates. -/
def nat_digits_padded (w n : Nat) : List Nat :=
  digits_le n ++ List.replicate (w - (digits_le n).length) 0

/-- Render a little-endian digit list as the usual big-endian string. -/
def digits_to_string (ds : List Nat) : String :=
  String.mk (ds.reverse.map Nat.digitChar)

/-- The numeric value the int() call recovers from a little-endian digit
field. -/
def parse_index : List Nat → Nat
  | [] => 0
  | d :: ds => d + 10 * parse_index ds

/-- Shard output file name from extract_names_batch.py: the string
batch_NNNN.parquet with the task ID zero-padded to width 4. -/
def batch_file_name (task_id : Nat) : String :=
  "batch_" ++ digits_to_string (nat_digits_padded 4 task_id) ++ ".parquet"

/-- Sidecar stats file name from extract_names_batch.py: same stem as the
data file plus the _stats suffix. -/
def stats_file_name (task_id : Nat) : String :=
  "batch_" ++ digits_to_string (nat_digits_padded 4 task_id) ++ "_stats.txt"

/-- Partitioner input file name from `save_batches` in generate_batches.py:
the string batch_NN_ceos.csv with the 1-based batch number zero-padded to
width 2. -/
def partition_file_name (i : Nat) : String :=
  "batch_" ++ digits_to_string (nat_digits_padded 2 i) ++ "_ceos.csv"

/-- Model of the pandas drop_duplicates call keeping the first occurrence
of each row. -/
def drop_duplicates [DecidableEq α] : List α → List α
  | [] => []
  | x :: xs => x :: drop_duplicates (xs.filter (fun y => decide (y ≠ x)))
termination_by l => l.length
decreasing_by
  simp only [List.length_cons]
  exact Nat.lt_succ_of_le (List.length_filter_le _ _)

/-- A row of the extraction query: SELECT DISTINCT user_id, fullname. -/
structure NameRow where
  user_id : Nat
  fullname : String
deriving DecidableEq

/-- Observable outcome of one `extract_batch` invocation: the query window
offset, the exit code when sys.exit is reached (none means a normal
return), and the data/stats files written (none means no file created). -/
structure ExtractResult (α : Type) where
  queryOffset : Nat
  exitCode : Option Nat
  outputFile : Option (String × List α)
  statsFile : Option String

/-- Model of `extract_batch` from extract_names_batch.py, with the
collaborator query modelled as its result: an `Except` holding either the
exception raised by the raw_sql call or the returned rows.  On error:
sys.exit(1), nothing written.  On zero rows: normal return, nothing
written.  Otherwise the deduplicated rows are written to the parquet file
of this task ID and the stats sidecar next to it. -/
def extract_batch [DecidableEq α] (task_id rows_per_batch : Nat)
    (queryResult : Except String (List α)) : ExtractResult α :=
  let offset := extract_offset task_id rows_per_batch
  match queryResult with
  | Except.error _ => ⟨offset, some 1, none, none⟩
  | Except.ok rows =>
      if rows.length = 0 then ⟨offset, none, none, none⟩
      else
        ⟨offset, none, some (batch_file_name task_id, drop_duplicates rows),
          some (stats_file_name task_id)⟩

/-- Effect of an `extract_batch` run on a directory of shard data files
(a map from file name to contents): only the file it writes changes. -/
def apply_result (fs : String → Option (List α)) (r : ExtractResult α) :
    String → Option (List α) :=
  fun name =>
    match r.outputFile with
    | some (n, rows) => if name = n then some rows else fs name
    | none => fs name

/-- Concrete query result used to witness the deduplication claim: a
duplicated (user_id, fullname) pair inside one page. -/
def sampleRows : List NameRow :=
  [⟨1, "ann"⟩, ⟨1, "ann"⟩, ⟨2, "bo"⟩]

/-! ### Definitions: reconciler (verify_extraction.py) -/

/-- One parsed sidecar stats file: every key is optional, because the
parser only keeps the key-value lines actually present. -/
structure BatchStats where
  task_id : Option Nat
  rows : Option Nat
  unique_users : Option Nat
  file_size_mb : Option Rat
  query_time_seconds : Option Rat
deriving DecidableEq

/-- Running totals accumulated by the statistics loop of
`verify_extraction`. -/
structure AggregateStats where
  total_rows : Nat
  total_unique_users : Nat
  total_size_mb : Rat
  total_query_time : Rat
deriving DecidableEq

/-- One iteration of the loop over the stats files: each conditional
"if key in stats" adds the value when the key is present and nothing
otherwise. -/
def add_stats (acc : AggregateStats) (s : BatchStats) : AggregateStats :=
  ⟨acc.total_rows + s.rows.getD 0,
    acc.total_unique_users + s.unique_users.getD 0,
    acc.total_size_mb + s.file_size_mb.getD 0,
    acc.total_query_time + s.query_time_seconds.getD 0⟩

/-- The aggregate totals over exactly the sidecar files found on disk. -/
def aggregate_stats (sidecars : List BatchStats) : AggregateStats :=
  sidecars.foldl add_stats ⟨0, 0, 0, 0⟩

/-- Average query time: the total divided by the number of found sidecar
files, computed only when at least one sidecar was found. -/
def avg_query_time (sidecars : List BatchStats) : Option Rat :=
  if sidecars.length = 0 then none
  else some ((aggregate_stats sidecars).total_query_time / (sidecars.length : Rat))

/-- Result of `verify_extraction`: the missing 1-based shard indices, the
returned completeness Boolean (missing list empty), and the aggregated
sidecar statistics. -/
structure VerificationReport where
  missing_ids : List Nat
  complete : Bool
  stats : AggregateStats
deriving DecidableEq

/-- Model of `verify_extraction` from verify_extraction.py: the first
argument lists the indices parsed from the parquet data files present,
the second the parsed sidecar stats files present.  The missing list is
the set difference of the 1-based range up to expected_batches and the
found indices (listed in increasing order, as the report sorts it), and
the statistics are aggregated from the sidecars alone. -/
def verify_extraction (found_ids : List Nat) (sidecars : List BatchStats)
    (expected_batches : Nat) : VerificationReport :=
  let missing := (List.range' 1 expected_batches).filter
      (fun i => decide (i ∉ found_ids))
  ⟨missing, missing.isEmpty, aggregate_stats sidecars⟩

/-- Exit status of the main block of verify_extraction.py: sys.exit(0)
when the report is complete, sys.exit(1) otherwise. -/
def verify_extraction_exit (r : VerificationReport) : Nat :=
  if r.complete then 0 else 1

/-! ### Theorems: partitioner -/

theorem take_sizes_length (ss : List Nat) (l : List α) :
    (take_sizes ss l).length = ss.length := by
  induction ss generalizing l with
  | nil => rfl
  | cons s ss ih => simp [take_sizes, ih]

theorem take_sizes_join (ss : List Nat) (l : List α) :
    (take_sizes ss l).flatten = l.take ss.sum := by
  induction ss generalizing l with
  | nil => simp [take_sizes]
  | cons s ss ih =>
      simp only [take_sizes, List.flatten_cons, ih, List.sum_cons]
      rw [List.take_add]

theorem take_sizes_map_length (ss : List Nat) (l : List α)
    (h : ss.sum ≤ l.length) :
    (take_sizes ss l).map List.length = ss := by
  induction ss generalizing l with
  | nil => rfl
  | cons s ss ih =>
      simp only [List.sum_cons] at h
      have hs : s ≤ l.length := le_trans (Nat.le_add_right _ _) h
      have hrest : ss.sum ≤ (l.drop s).length := by
        rw [List.length_drop]; omega
      simp [take_sizes, List.length_take, Nat.min_eq_left hs, ih _ hrest]

theorem sum_base_plus_ite (k b r : Nat) :
    ((List.range k).map (fun i => b + if i < r then 1 else 0)).sum
      = k * b + min r k := by
  induction k with
  | zero => simp
  | succ k ih =>
      rw [List.range_succ, List.map_append, List.sum_append]
      simp only [List.map_cons, List.map_nil, List.sum_cons, List.sum_nil, ih]
      by_cases hk : k < r
      · simp only [if_pos hk]
        have : min r (k + 1) = min r k + 1 := by omega
        rw [this]; ring
      · simp only [if_neg hk]
        have : min r (k + 1) = min r k := by omega
        rw [this]; ring

theorem batch_sizes_sum (total k : Nat) (hk : 1 ≤ k) :
    (batch_sizes total k).sum = total := by
  unfold batch_sizes
  rw [sum_base_plus_ite]
  have hmod : total % k < k := Nat.mod_lt _ hk
  rw [Nat.min_eq_left (le_of_lt hmod)]
  rw [Nat.mul_comm]
  exact Nat.div_add_mod' total k

theorem mem_batch_sizes_bounds {total k a : Nat}
    (ha : a ∈ batch_sizes total k) :
    total / k ≤ a ∧ a ≤ total / k + 1 := by
  unfold batch_sizes at ha
  obtain ⟨i, -, rfl⟩ := List.mem_map.mp ha
  by_cases h : i < total % k <;> simp [h]

/-- C1: for every record list R and every shard count k at least 1,
`split_into_batches` produces exactly k shards, shard i (0-indexed) has
size base + 1 if i is below the remainder and base otherwise (base the
quotient of the length by k, remainder the rest), the concatenation of
the shards in shard order is exactly R, and any two shard sizes differ by
at most 1. -/
theorem C1_split_into_batches (α : Type) (R : List α) (k : Nat) (hk : 1 ≤ k) :
    (split_into_batches R k).length = k
    ∧ (split_into_batches R k).map List.length
        = (List.range k).map
            (fun i => R.length / k + if i < R.length % k then 1 else 0)
    ∧ (split_into_batches R k).flatten = R
    ∧ ∀ a ∈ (split_into_batches R k).map List.length,
        ∀ b ∈ (split_into_batches R k).map List.length, a ≤ b + 1 := by
  have hsum : (batch_sizes R.length k).sum = R.length := batch_sizes_sum _ _ hk
  have hmap : (split_into_batches R k).map List.length = batch_sizes R.length k :=
    take_sizes_map_length _ _ (le_of_eq hsum)
  refine ⟨?_, ?_, ?_, ?_⟩
  · unfold split_into_batches
    rw [take_sizes_length]
    simp [batch_sizes]
  · rw [hmap]; rfl
  · unfold split_into_batches
    rw [take_sizes_join, hsum, List.take_length]
  · intro a ha b hb
    rw [hmap] at ha hb
    have h1 := mem_batch_sizes_bounds ha
    have h2 := mem_batch_sizes_bounds hb
    omega

/-- Witness for C1 at the end-to-end example of the spec: 13 records into
5 batches gives sizes 3, 3, 3, 2, 2 and reassembles the input. -/
theorem C1_split_into_batches_witness :
    1 ≤ 5
    ∧ ((split_into_batches (List.range 13) 5).length = 5
      ∧ (split_into_batches (List.range 13) 5).map List.length
          = (List.range 5).map
              (fun i =>
                (List.range 13).length / 5
                  + if i < (List.range 13).length % 5 then 1 else 0)
      ∧ (split_into_batches (List.range 13) 5).flatten = List.range 13
      ∧ ∀ a ∈ (split_into_batches (List.range 13) 5).map List.length,
          ∀ b ∈ (split_into_batches (List.range 13) 5).map List.length,
            a ≤ b + 1) :=
  ⟨by decide, C1_split_into_batches Nat (List.range 13) 5 (by decide)⟩

/-- Supporting characterisation: `verify_batches` returns false iff the
row count of the reloaded concatenation differs from that of the original
or a duplicate row exists. -/
theorem verify_batches_false_iff [DecidableEq α] (original : List α)
    (reloaded : List (List α)) :
    verify_batches original reloaded = false
      ↔ (original.length ≠ reloaded.flatten.length
          ∨ duplicated_count [] reloaded.flatten ≠ 0) := by
  unfold verify_batches
  by_cases h1 : original.length = reloaded.flatten.length
    <;> by_cases h2 : duplicated_count [] reloaded.flatten = 0
    <;> simp [h1, h2]

/-- C2 (code bug): on the failing input — original rows 0 and 1, shard
files reloading to a pair of files each holding row 0, i.e. a duplicated
row — `verify_batches` does return the explicit false, but `main` ignores
that result: the process still reports success and exits 0, so the failed
verification is not fatal to the partitioning step. -/
theorem C2_verification_ignored_by_main :
    verify_batches [0, 1] [[0], [0]] = false
    ∧ (generate_batches_main [0, 1] [[0], [0]]).verifyResult = false
    ∧ (generate_batches_main [0, 1] [[0], [0]]).reportedSuccess = true
    ∧ (generate_batches_main [0, 1] [[0], [0]]).exitCode = 0 := by
  decide

/-! ### Theorems: extractor -/

/-- C4: the window offset of the extractor satisfies
offset i = (i - 1) * p and offset 1 = 0, consecutive offsets differ by
exactly p, hence consecutive windows are contiguous, and windows of
distinct shard indices never overlap. -/
theorem C4_offset_window (i p : Nat) (hi : 1 ≤ i) (hp : 1 ≤ p) :
    extract_offset i p = (i - 1) * p
    ∧ extract_offset 1 p = 0
    ∧ extract_offset (i + 1) p - extract_offset i p = p
    ∧ extract_offset i p + p = extract_offset (i + 1) p
    ∧ ∀ j x, i < j →
        extract_offset i p ≤ x → x < extract_offset i p + p →
        ¬(extract_offset j p ≤ x ∧ x < extract_offset j p + p) := by
  obtain ⟨m, rfl⟩ : ∃ m, i = m + 1 := ⟨i - 1, by omega⟩
  refine ⟨rfl, by simp [extract_offset], ?_, ?_, ?_⟩
  · show (m + 1 + 1 - 1) * p - (m + 1 - 1) * p = p
    simp only [Nat.add_sub_cancel]
    rw [Nat.succ_mul]
    omega
  · show (m + 1 - 1) * p + p = (m + 1 + 1 - 1) * p
    simp only [Nat.add_sub_cancel]
    rw [Nat.succ_mul]
  · intro j x hij hle hlt hmem
    obtain ⟨hjle, -⟩ := hmem
    unfold extract_offset at hle hlt hjle
    simp only [Nat.add_sub_cancel] at hle hlt
    have h1 : m + 1 ≤ j - 1 := by omega
    have h2 : (m + 1) * p ≤ (j - 1) * p := Nat.mul_le_mul_right p h1
    have h3 : m * p + p = (m + 1) * p := (Nat.succ_mul m p).symm
    omega

/-- Witness for C4 at the example of the spec: shard index 3 with page
size 10 gives offset 20, contiguous with the offset of shard 4. -/
theorem C4_offset_window_witness :
    1 ≤ 3 ∧ 1 ≤ 10
    ∧ extract_offset 3 10 + 10 = extract_offset 4 10 :=
  ⟨by decide, by decide,
    (C4_offset_window 3 10 (by decide) (by decide)).2.2.2.1⟩

/-- C5: when the query raises, `extract_batch` exits with code 1, creates
no shard data file and no stats file, and leaves every existing shard
data file in the output directory unchanged. -/
theorem C5_query_error_writes_nothing (α : Type) [DecidableEq α]
    (t p : Nat) (e : String) :
    (extract_batch t p (Except.error e) : ExtractResult α).exitCode = some 1
    ∧ (extract_batch t p (Except.error e) : ExtractResult α).outputFile = none
    ∧ (extract_batch t p (Except.error e) : ExtractResult α).statsFile = none
    ∧ ∀ (fs : String → Option (List α)) (name : String),
        apply_result fs (extract_batch t p (Except.error e)) name = fs name :=
  ⟨rfl, rfl, rfl, fun _ _ => rfl⟩

/-- C6: when the query returns zero rows, `extract_batch` returns normally
(no sys.exit), creates no shard data file and no stats file, and leaves
every existing shard data file unchanged. -/
theorem C6_empty_result_is_normal (α : Type) [DecidableEq α] (t p : Nat) :
    (extract_batch t p (Except.ok ([] : List α))).exitCode = none
    ∧ (extract_batch t p (Except.ok ([] : List α))).outputFile = none
    ∧ (extract_batch t p (Except.ok ([] : List α))).statsFile = none
    ∧ ∀ (fs : String → Option (List α)) (name : String),
        apply_result fs (extract_batch t p (Except.ok [])) name = fs name :=
  ⟨rfl, rfl, rfl, fun _ _ => rfl⟩

theorem mem_of_mem_drop_duplicates [DecidableEq α] (l : List α) (a : α)
    (h : a ∈ drop_duplicates l) : a ∈ l := by
  induction l using drop_duplicates.induct with
  | case1 => simp [drop_duplicates] at h
  | case2 x xs ih =>
      rw [drop_duplicates] at h
      rcases List.mem_cons.mp h with h | h
      · exact h ▸ List.mem_cons_self _ _
      · exact List.mem_cons_of_mem _ (List.mem_of_mem_filter (ih h))

theorem drop_duplicates_nodup [DecidableEq α] (l : List α) :
    (drop_duplicates l).Nodup := by
  induction l using drop_duplicates.induct with
  | case1 => simp [drop_duplicates]
  | case2 x xs ih =>
      rw [drop_duplicates]
      refine List.nodup_cons.mpr ⟨fun hmem => ?_, ih⟩
      have := List.of_mem_filter (mem_of_mem_drop_duplicates _ _ hmem)
      simp at this

/-- C8: for a non-empty query result, `extract_batch` persists exactly the
rows deduplicated by the (user_id, fullname) pair, so the shard file
contains no two rows agreeing on both fields. -/
theorem C8_persisted_rows_deduplicated (t p : Nat) (rows : List NameRow)
    (h : rows ≠ []) :
    (extract_batch t p (Except.ok rows)).outputFile
        = some (batch_file_name t, drop_duplicates rows)
    ∧ (drop_duplicates rows).Pairwise
        (fun r s => ¬(r.user_id = s.user_id ∧ r.fullname = s.fullname)) := by
  constructor
  · have hlen : rows.length ≠ 0 := fun h0 => h (List.length_eq_zero.mp h0)
    simp only [extract_batch, if_neg hlen]
  · refine (drop_duplicates_nodup rows).imp ?_
    intro a b hne hc
    obtain ⟨h1, h2⟩ := hc
    cases a
    cases b
    cases h1
    cases h2
    exact hne rfl

/-- Witness for C8 at `sampleRows`. -/
theorem C8_persisted_rows_deduplicated_witness :
    sampleRows ≠ []
    ∧ ((extract_batch 3 10 (Except.ok sampleRows)).outputFile
          = some (batch_file_name 3, drop_duplicates sampleRows)
      ∧ (drop_duplicates sampleRows).Pairwise
          (fun r s => ¬(r.user_id = s.user_id ∧ r.fullname = s.fullname))) :=
  ⟨by decide, C8_persisted_rows_deduplicated 3 10 sampleRows (by decide)⟩

theorem parse_index_append_zeros (l : List Nat) (k : Nat) :
    parse_index (l ++ List.replicate k 0) = parse_index l := by
  induction l with
  | nil =>
      simp only [List.nil_append]
      induction k with
      | zero => rfl
      | succ k ih => simp [List.replicate_succ, parse_index, ih]
  | cons d ds ih => simp [parse_index, ih]

theorem parse_index_digits_le_aux (fuel n : Nat) (h : n ≤ fuel) :
    parse_index (digits_le_aux fuel n) = n := by
  induction fuel generalizing n with
  | zero =>
      have : n = 0 := Nat.le_zero.mp h
      subst this; rfl
  | succ fuel ih =>
      match n with
      | 0 => rfl
      | m + 1 =>
          have hdiv : (m + 1) / 10 ≤ fuel := by
            have : (m + 1) / 10 < m + 1 := Nat.div_lt_self (Nat.succ_pos m) (by omega)
            omega
          simp only [digits_le_aux, parse_index, ih _ hdiv]
          omega

theorem parse_index_digits_le (n : Nat) : parse_index (digits_le n) = n :=
  parse_index_digits_le_aux n n (Nat.le_refl n)

/-- C9 counterexample: the shard output file of the extractor for index 3
is batch_0003.parquet — a 4-digit zero-padded index — not the claimed
2-digit convention, which would give batch_03.parquet. -/
theorem C9_counterexample_four_digit_index :
    batch_file_name 3 = "batch_0003.parquet"
    ∧ batch_file_name 3
        ≠ "batch_" ++ digits_to_string (nat_digits_padded 2 3) ++ ".parquet"
    ∧ "batch_" ++ digits_to_string (nat_digits_padded 2 3) ++ ".parquet"
        = "batch_03.parquet" := by
  decide

/-- C9 (amended): the partitioner pads shard indices to 2 digits in
batch_NN_ceos.csv while the extractor pads to 4 digits in
batch_NNNN.parquet, the sidecar shares the stem of the data file plus
_stats, and parsing the zero-padded index field of a generated filename
recovers the shard index for every width. -/
theorem C9_filename_roundtrip (w i : Nat) :
    parse_index (nat_digits_padded w i) = i
    ∧ batch_file_name i
        = "batch_" ++ digits_to_string (nat_digits_padded 4 i) ++ ".parquet"
    ∧ stats_file_name i
        = "batch_" ++ digits_to_string (nat_digits_padded 4 i) ++ "_stats.txt"
    ∧ partition_file_name i
        = "batch_" ++ digits_to_string (nat_digits_padded 2 i) ++ "_ceos.csv" := by
  refine ⟨?_, rfl, rfl, rfl⟩
  unfold nat_digits_padded
  rw [parse_index_append_zeros, parse_index_digits_le]

/-! ### Theorems: reconciler -/

/-- C3: the missing list is exactly the set difference of the 1-based
range up to the expected shard count and the found indices, completeness
is the emptiness of the missing list, the process exits 0 when complete
and 1 otherwise, and the example of the spec (found 1, 2 and 4 with 5
expected) yields missing 3 and 5. -/
theorem C3_missing_is_set_difference (found : List Nat)
    (sidecars : List BatchStats) (N : Nat) :
    (∀ i, i ∈ (verify_extraction found sidecars N).missing_ids
        ↔ (1 ≤ i ∧ i ≤ N ∧ i ∉ found))
    ∧ ((verify_extraction found sidecars N).complete
        = (verify_extraction found sidecars N).missing_ids.isEmpty)
    ∧ (verify_extraction_exit (verify_extraction found sidecars N)
        = if (verify_extraction found sidecars N).missing_ids.isEmpty
          then 0 else 1)
    ∧ (verify_extraction [1, 2, 4] [] 5).missing_ids = [3, 5] := by
  refine ⟨?_, rfl, rfl, by decide⟩
  intro i
  simp only [verify_extraction, List.mem_filter, List.mem_range'_1,
    decide_eq_true_eq]
  constructor
  · rintro ⟨⟨h1, h2⟩, h3⟩
    exact ⟨h1, by omega, h3⟩
  · rintro ⟨h1, h2, h3⟩
    exact ⟨⟨h1, by omega⟩, h3⟩

theorem foldl_add_stats_eq (l : List BatchStats) (acc : AggregateStats) :
    l.foldl add_stats acc
      = ⟨acc.total_rows + (l.map (fun s => s.rows.getD 0)).sum,
          acc.total_unique_users + (l.map (fun s => s.unique_users.getD 0)).sum,
          acc.total_size_mb + (l.map (fun s => s.file_size_mb.getD 0)).sum,
          acc.total_query_time
            + (l.map (fun s => s.query_time_seconds.getD 0)).sum⟩ := by
  induction l generalizing acc with
  | nil => simp
  | cons s l ih =>
      simp only [List.foldl_cons, List.map_cons, List.sum_cons, ih, add_stats]
      congr 1 <;> ring

/-- C7: each aggregate total is the sum of the corresponding field over
exactly the sidecar records found (an absent key contributes 0), the
average query duration divides the total by the number of found sidecars,
a shard with no sidecar simply does not appear in the sums (the empty
aggregate is all zeros), and the example of the spec — rowCounts 100 and
50 — aggregates to 150. -/
theorem C7_aggregate_is_sum_over_found (l : List BatchStats) :
    (aggregate_stats l).total_rows = (l.map (fun s => s.rows.getD 0)).sum
    ∧ (aggregate_stats l).total_unique_users
        = (l.map (fun s => s.unique_users.getD 0)).sum
    ∧ (aggregate_stats l).total_size_mb
        = (l.map (fun s => s.file_size_mb.getD 0)).sum
    ∧ (aggregate_stats l).total_query_time
        = (l.map (fun s => s.query_time_seconds.getD 0)).sum
    ∧ avg_query_time l
        = (if l.length = 0 then none
           else some ((l.map (fun s => s.query_time_seconds.getD 0)).sum
              / (l.length : Rat)))
    ∧ (aggregate_stats [⟨none, some 100, none, none, none⟩,
          ⟨none, some 50, none, none, none⟩]).total_rows = 150
    ∧ aggregate_stats [] = ⟨0, 0, 0, 0⟩ := by
  have h := foldl_add_stats_eq l ⟨0, 0, 0, 0⟩
  refine ⟨?_, ?_, ?_, ?_, ?_, by decide, rfl⟩
  · rw [aggregate_stats, h]; simp
  · rw [aggregate_stats, h]; simp
  · rw [aggregate_stats, h]; simp
  · rw [aggregate_stats, h]; simp
  · rw [avg_query_time, aggregate_stats, h]; simp

/-- C10: the missing-shard list is computed solely from the data files
found and the aggregate solely from the sidecars found; concretely, with
data files for shards 1 and 3 but a sidecar only for shard 2 (rowCount
50), shard 2 is reported missing yet contributes its 50 rows to the
aggregate, and shard 3 counts as found while contributing nothing. -/
theorem C10_missing_and_stats_independent (found found' : List Nat)
    (s s' : List BatchStats) (N : Nat) :
    (verify_extraction found s N).missing_ids
        = (verify_extraction found s' N).missing_ids
    ∧ (verify_extraction found s N).stats
        = (verify_extraction found' s N).stats
    ∧ 2 ∈ (verify_extraction [1, 3]
          [⟨some 2, some 50, none, none, none⟩] 3).missing_ids
    ∧ (verify_extraction [1, 3]
          [⟨some 2, some 50, none, none, none⟩] 3).stats.total_rows = 50
    ∧ 3 ∉ (verify_extraction [1, 3]
          [⟨some 2, some 50, none, none, none⟩] 3).missing_ids
    ∧ (verify_extraction [1, 3]
          [⟨some 2, some 50, none, none, none⟩] 3).complete = false :=
  ⟨rfl, rfl, by decide, by decide, by decide, by decide⟩

end ManagersRevelio
